import Mathlib

/-!
Shallow embedding of the yakataka event-sourced kanban backend.

Source of truth: src/server/src of the repository.
- `applyEvent`, `ProjectAggregate` commands: src/server/src/domain/project/aggregate.ts
- `Store` (event store): src/server/src/infrastructure (EventStore) and the
  sqlite schema in src/server/src/db/index.ts (UNIQUE(aggregate_type,
  aggregate_id, version), INTEGER PRIMARY KEY AUTOINCREMENT id).
- Workspace aggregate: WorkspaceAggregate / getOrCreateWorkspace.

Modelling conventions:
- A JS `Map<string, V>` is modelled as a `List V` in insertion order, keyed by
  the element's `id` field; `get` is `List.find?`, `set` replaces the entry in
  place when the key is present and appends otherwise, `delete` filters the
  key out, and iteration over `values()` is iteration over the list.
- JS numbers used as positions are modelled as `Int`.
- `uuidv4()` results are passed in as explicit arguments.
- `new Date().toISOString()` results are passed in as explicit `String`
  arguments where they are observable; `applyEvent` never reads them.
- `throw new Error(msg)` is modelled as `Except.error` carrying a
  `DomainError`; the constructor classifies the thrown message following the
  error taxonomy of the design (NotFound for the "... not found" messages,
  InvalidOperation for the self-dependency guard, ConcurrencyConflict for the
  store's version-collision error).
- The `_source` audit tag that commands may merge into `event_data` is kept
  as a separate `source` field on events; no state transition reads it.
-/

set_option maxHeartbeats 1000000

namespace Yakataka

/-- Card record (src/server/src/types.ts, `interface Card`). -/
structure Card where
  id : String
  column_id : String
  title : String
  description : String
  position : Int
  dependencies : List String
  deriving Repr, DecidableEq

/-- Column record (src/server/src/types.ts, `interface Column`). The `cards`
field is empty in the projected state and only filled by `toProject`. -/
structure Column where
  id : String
  project_id : String
  name : String
  position : Int
  cards : List Card
  deriving Repr, DecidableEq

/-- Payloads of the project events (src/server/src/types.ts). `UnknownEvent`
stands for any event whose `event_type` string is none of the declared tags;
it reaches the `default` branch of `applyEvent`. -/
inductive EventData where
  | ProjectCreated (project_id : String) (workspace_id : String)
      (name : String) (description : String)
  | ProjectRenamed (name : String)
  | ProjectDescriptionUpdated (description : String)
  | ProjectDeleted
  | ColumnAdded (column_id : String) (name : String) (position : Int)
  | ColumnRenamed (column_id : String) (name : String)
  | ColumnMoved (column_id : String) (position : Int)
  | ColumnDeleted (column_id : String)
  | CardAdded (card_id : String) (column_id : String) (title : String)
      (description : String) (position : Int)
  | CardUpdated (card_id : String) (title : Option String)
      (description : Option String)
  | CardMoved (card_id : String) (column_id : String) (position : Int)
  | CardDeleted (card_id : String)
  | DependencyAdded (card_id : String) (depends_on_card_id : String)
  | DependencyRemoved (card_id : String) (depends_on_card_id : String)
  | UnknownEvent (event_type : String)
  deriving Repr, DecidableEq

/-- A project-stream event as seen by `applyEvent`: typed payload, version,
timestamp, and the optional `_source` audit tag. -/
structure ProjectEvent where
  event_data : EventData
  version : Nat
  timestamp : String
  source : Option String
  deriving Repr, DecidableEq

/-- The projected state of a project (interface ProjectState in
src/server/src/domain/project/aggregate.ts). `columns` and `cards` model the
two `Map`s in insertion order. -/
structure ProjectState where
  id : String
  workspace_id : String
  name : String
  description : String
  deleted : Bool
  columns : List Column
  cards : List Card
  deriving Repr, DecidableEq

/-- `initialState()` of aggregate.ts. -/
def initialState : ProjectState :=
  { id := ""
    workspace_id := ""
    name := ""
    description := ""
    deleted := false
    columns := []
    cards := [] }

/-- `Map.get` on the columns map. -/
def getColumn? (cols : List Column) (k : String) : Option Column :=
  cols.find? (fun c => c.id == k)

/-- `Map.set` on the columns map: replace in place when present, else append. -/
def setColumn (cols : List Column) (k : String) (v : Column) : List Column :=
  if (cols.find? (fun c => c.id == k)).isSome then
    cols.map (fun c => if c.id == k then v else c)
  else cols ++ [v]

/-- `Map.delete` on the columns map. -/
def delColumn (cols : List Column) (k : String) : List Column :=
  cols.filter (fun c => c.id != k)

/-- `Map.get` on the cards map. -/
def getCard? (cards : List Card) (k : String) : Option Card :=
  cards.find? (fun c => c.id == k)

/-- `Map.set` on the cards map. -/
def setCard (cards : List Card) (k : String) (v : Card) : List Card :=
  if (cards.find? (fun c => c.id == k)).isSome then
    cards.map (fun c => if c.id == k then v else c)
  else cards ++ [v]

/-- `Map.delete` on the cards map. -/
def delCard (cards : List Card) (k : String) : List Card :=
  cards.filter (fun c => c.id != k)

/-- `applyEvent(state, event)` of aggregate.ts: the pure fold step. Each
declared event tag has exactly one branch; `UnknownEvent` takes the `default`
branch and returns the state unchanged. -/
def applyEvent (state : ProjectState) (event : ProjectEvent) : ProjectState :=
  match event.event_data with
  | .ProjectCreated project_id workspace_id name description =>
      { state with
        id := project_id
        workspace_id := workspace_id
        name := name
        description := description }
  | .ProjectRenamed name => { state with name := name }
  | .ProjectDescriptionUpdated description =>
      { state with description := description }
  | .ProjectDeleted => { state with deleted := true }
  | .ColumnAdded column_id name position =>
      { state with
        columns := setColumn state.columns column_id
          { id := column_id
            project_id := state.id
            name := name
            position := position
            cards := [] } }
  | .ColumnRenamed column_id name =>
      match getColumn? state.columns column_id with
      | some col =>
          { state with
            columns := setColumn state.columns column_id
              { col with name := name } }
      | none => state
  | .ColumnMoved column_id position =>
      match getColumn? state.columns column_id with
      | some col =>
          { state with
            columns := setColumn state.columns column_id
              { col with position := position } }
      | none => state
  | .ColumnDeleted column_id =>
      { state with columns := delColumn state.columns column_id }
  | .CardAdded card_id column_id title description position =>
      { state with
        cards := setCard state.cards card_id
          { id := card_id
            column_id := column_id
            title := title
            description := description
            position := position
            dependencies := [] } }
  | .CardUpdated card_id title description =>
      match getCard? state.cards card_id with
      | some card =>
          { state with
            cards := setCard state.cards card_id
              { card with
                title := title.getD card.title
                description := description.getD card.description } }
      | none => state
  | .CardMoved card_id column_id position =>
      match getCard? state.cards card_id with
      | some card =>
          { state with
            cards := setCard state.cards card_id
              { card with
                column_id := column_id
                position := position } }
      | none => state
  | .CardDeleted card_id =>
      { state with cards := delCard state.cards card_id }
  | .DependencyAdded card_id depends_on_card_id =>
      match getCard? state.cards card_id with
      | some card =>
          if depends_on_card_id ∈ card.dependencies then state
          else
            { state with
              cards := setCard state.cards card_id
                { card with
                  dependencies :=
                    card.dependencies ++ [depends_on_card_id] } }
      | none => state
  | .DependencyRemoved card_id depends_on_card_id =>
      match getCard? state.cards card_id with
      | some card =>
          { state with
            cards := setCard state.cards card_id
              { card with
                dependencies :=
                  card.dependencies.filter
                    (fun i => i != depends_on_card_id) } }
      | none => state
  | .UnknownEvent _ => state

/-- Replaying an ordered event list (the loop in `ProjectAggregate.load`). -/
def fold (init : ProjectState) (events : List ProjectEvent) : ProjectState :=
  events.foldl applyEvent init

/-- Classified command/store failures (design's error taxonomy over the
`throw new Error(msg)` sites of the source). -/
inductive DomainError where
  | NotFound (msg : String)
  | InvalidOperation (msg : String)
  | ConcurrencyConflict (msg : String)
  deriving Repr, DecidableEq

/-- `Map.has` on the cards map of a state. -/
def hasCard (state : ProjectState) (k : String) : Bool :=
  (getCard? state.cards k).isSome

/-- `Map.has` on the columns map of a state. -/
def hasColumn (state : ProjectState) (k : String) : Bool :=
  (getColumn? state.columns k).isSome

/-- Stable insertion step for sorting columns ascending by position. -/
def insertColByPosition (c : Column) : List Column → List Column
  | [] => [c]
  | d :: ds =>
      if c.position ≤ d.position then c :: d :: ds
      else d :: insertColByPosition c ds

/-- `[...columns.values()].sort((a, b) => a.position - b.position)`: a stable
ascending sort by position, as specified for `Array.prototype.sort`. -/
def sortColumnsByPosition (cols : List Column) : List Column :=
  cols.foldr insertColByPosition []

/-- Stable insertion step for sorting cards ascending by position. -/
def insertCardByPosition (c : Card) : List Card → List Card
  | [] => [c]
  | d :: ds =>
      if c.position ≤ d.position then c :: d :: ds
      else d :: insertCardByPosition c ds

/-- Stable ascending sort of cards by position (used by `toProject`). -/
def sortCardsByPosition (cards : List Card) : List Card :=
  cards.foldr insertCardByPosition []

/-- Nested snapshot returned to callers (`interface Project` plus the
column nesting built by `toProject`). -/
structure Project where
  id : String
  workspace_id : String
  name : String
  description : String
  columns : List Column
  deriving Repr, DecidableEq

/-- One in-memory `ProjectAggregate` instance: its stream id, projected
state, version counter, and the ordered list of events the instance has
appended to the store so far (`log`). -/
structure ProjectAggregate where
  projectId : String
  state : ProjectState
  version : Nat
  log : List ProjectEvent
  deriving Repr, DecidableEq

/-- A freshly constructed aggregate (`new ProjectAggregate(projectId)`). -/
def ProjectAggregate.mk0 (projectId : String) : ProjectAggregate :=
  { projectId := projectId, state := initialState, version := 0, log := [] }

/-- `appendEvent` of aggregate.ts: bump the version, record the event, and
fold it into the local state. The store stamps the persisted timestamp; the
locally applied copy carries the wall-clock string, which `applyEvent`
ignores, so it is left empty here. -/
def ProjectAggregate.appendEvent (agg : ProjectAggregate) (data : EventData)
    (source : Option String) : ProjectAggregate :=
  let version := agg.version + 1
  let event : ProjectEvent :=
    { event_data := data, version := version, timestamp := "", source := source }
  { agg with
    version := version
    log := agg.log ++ [event]
    state := applyEvent agg.state event }

/-- `ProjectAggregate.create`: ProjectCreated followed by the three default
columns. `cid0 cid1 cid2` are the `uuidv4()` results for the columns. -/
def ProjectAggregate.create (agg : ProjectAggregate) (workspaceId : String)
    (name : String) (description : String) (cid0 cid1 cid2 : String) :
    ProjectAggregate :=
  let agg :=
    agg.appendEvent
      (.ProjectCreated agg.projectId workspaceId name description) none
  let agg := agg.appendEvent (.ColumnAdded cid0 "To Do" 0) none
  let agg := agg.appendEvent (.ColumnAdded cid1 "In Progress" 1) none
  agg.appendEvent (.ColumnAdded cid2 "Done" 2) none

/-- `moveCard(cardId, columnId, position?, source?)`. -/
def ProjectAggregate.moveCard (agg : ProjectAggregate) (cardId : String)
    (columnId : String) (position : Option Int) (source : Option String) :
    Except DomainError ProjectAggregate :=
  if ¬ hasCard agg.state cardId then
    .error (.NotFound "Card not found")
  else if ¬ hasColumn agg.state columnId then
    .error (.NotFound "Column not found")
  else
    let cardsInColumn :=
      agg.state.cards.filter (fun c => c.column_id == columnId && c.id != cardId)
    let pos := position.getD (cardsInColumn.length : Int)
    .ok (agg.appendEvent (.CardMoved cardId columnId pos) source)

/-- The card-moving loop inside `deleteColumn`: iterate over the snapshot of
the cards map taken at loop entry, moving each card of the deleted column to
`firstId`; a failure of `moveCard` propagates. -/
def ProjectAggregate.moveLoop (agg : ProjectAggregate) (snapshot : List Card)
    (columnId : String) (firstId : String) :
    Except DomainError ProjectAggregate :=
  match snapshot with
  | [] => .ok agg
  | card :: rest =>
      if card.column_id == columnId then
        match agg.moveCard card.id firstId none none with
        | .error e => .error e
        | .ok agg' => agg'.moveLoop rest columnId firstId
      else agg.moveLoop rest columnId firstId

/-- `deleteColumn(columnId)`: cards of the column are first moved to the
lowest-position remaining column (the head of the stable position sort),
then ColumnDeleted is appended. -/
def ProjectAggregate.deleteColumn (agg : ProjectAggregate)
    (columnId : String) : Except DomainError ProjectAggregate :=
  if ¬ hasColumn agg.state columnId then
    .error (.NotFound "Column not found")
  else
    match (sortColumnsByPosition agg.state.columns).head? with
    | some firstColumn =>
        if firstColumn.id != columnId then
          match agg.moveLoop agg.state.cards columnId firstColumn.id with
          | .error e => .error e
          | .ok agg' => .ok (agg'.appendEvent (.ColumnDeleted columnId) none)
        else .ok (agg.appendEvent (.ColumnDeleted columnId) none)
    | none => .ok (agg.appendEvent (.ColumnDeleted columnId) none)

/-- `removeDependency(cardId, dependsOnCardId, source?)`. -/
def ProjectAggregate.removeDependency (agg : ProjectAggregate)
    (cardId : String) (dependsOnCardId : String) (source : Option String) :
    Except DomainError ProjectAggregate :=
  if ¬ hasCard agg.state cardId then
    .error (.NotFound "Card not found")
  else
    .ok (agg.appendEvent (.DependencyRemoved cardId dependsOnCardId) source)

/-- The dependency-removing loop inside `deleteCard`: iterate over the
snapshot of the cards map taken at loop entry and strip the edge from every
card whose (snapshot) dependency list includes `cardId`. -/
def ProjectAggregate.depLoop (agg : ProjectAggregate) (snapshot : List Card)
    (cardId : String) (source : Option String) :
    Except DomainError ProjectAggregate :=
  match snapshot with
  | [] => .ok agg
  | card :: rest =>
      if cardId ∈ card.dependencies then
        match agg.removeDependency card.id cardId source with
        | .error e => .error e
        | .ok agg' => agg'.depLoop rest cardId source
      else agg.depLoop rest cardId source

/-- `deleteCard(cardId, source?)`: dependencies referencing the card are
removed first, then CardDeleted is appended. -/
def ProjectAggregate.deleteCard (agg : ProjectAggregate) (cardId : String)
    (source : Option String) : Except DomainError ProjectAggregate :=
  if ¬ hasCard agg.state cardId then
    .error (.NotFound "Card not found")
  else
    match agg.depLoop agg.state.cards cardId source with
    | .error e => .error e
    | .ok agg' => .ok (agg'.appendEvent (.CardDeleted cardId) source)

/-- `addDependency(cardId, dependsOnCardId, source?)`. -/
def ProjectAggregate.addDependency (agg : ProjectAggregate) (cardId : String)
    (dependsOnCardId : String) (source : Option String) :
    Except DomainError ProjectAggregate :=
  if ¬ hasCard agg.state cardId then
    .error (.NotFound "Card not found")
  else if ¬ hasCard agg.state dependsOnCardId then
    .error (.NotFound "Dependency card not found")
  else if cardId == dependsOnCardId then
    .error (.InvalidOperation "Card cannot depend on itself")
  else
    .ok (agg.appendEvent (.DependencyAdded cardId dependsOnCardId) source)

/-- `getCard(cardId)` query. -/
def ProjectAggregate.getCard (agg : ProjectAggregate) (cardId : String) :
    Option Card :=
  getCard? agg.state.cards cardId

/-- `getColumn(columnId)` query. -/
def ProjectAggregate.getColumn (agg : ProjectAggregate) (columnId : String) :
    Option Column :=
  getColumn? agg.state.columns columnId

/-- `toProject()`: columns sorted ascending by position, each holding its
cards sorted ascending by position. -/
def ProjectAggregate.toProject (agg : ProjectAggregate) : Project :=
  { id := agg.state.id
    workspace_id := agg.state.workspace_id
    name := agg.state.name
    description := agg.state.description
    columns :=
      (sortColumnsByPosition agg.state.columns).map (fun col =>
        { col with
          cards :=
            sortCardsByPosition
              (agg.state.cards.filter (fun c => c.column_id == col.id)) }) }


/-- A persisted row of the `events` table (interface EventRow plus the
AUTOINCREMENT `id` assigned by sqlite). The payload type is a parameter:
the store never inspects it (the source stores it JSON-serialized). -/
structure EventRow (P : Type) where
  id : Nat
  aggregate_type : String
  aggregate_id : String
  event_type : String
  event_data : P
  version : Nat
  timestamp : String
  deriving Repr, DecidableEq

/-- An event handed to `append`: `Omit<BaseEvent, "id" | "timestamp">`. -/
structure NewEvent (P : Type) where
  aggregate_type : String
  aggregate_id : String
  event_type : String
  event_data : P
  version : Nat
  deriving Repr, DecidableEq

/-- An event as surfaced by the store (`BaseEvent` / `DomainEvent`): the
store-assigned sequence id is optional (`id?: number`). -/
structure StoredEvent (P : Type) where
  id : Option Nat
  aggregate_type : String
  aggregate_id : String
  event_type : String
  event_data : P
  version : Nat
  timestamp : String
  deriving Repr, DecidableEq

/-- The durable state of the event store: the `events` table rows in insert
order plus the next AUTOINCREMENT id (sqlite starts at 1). -/
structure Store (P : Type) where
  rows : List (EventRow P)
  nextId : Nat
  deriving Repr, DecidableEq

/-- An empty database. -/
def Store.empty (P : Type) : Store P := { rows := [], nextId := 1 }

/-- Whether a row collides with the UNIQUE(aggregate_type, aggregate_id,
version) constraint for the incoming event. -/
def rowConflicts (e : NewEvent P) (r : EventRow P) : Bool :=
  r.aggregate_type == e.aggregate_type &&
    r.aggregate_id == e.aggregate_id && r.version == e.version

/-- `EventStore.append(event)`: stamp the server timestamp (`now`), INSERT
the row (sqlite assigns the sequence id and the UNIQUE constraint rejects a
duplicate (aggregate_type, aggregate_id, version), surfaced as the
concurrency-conflict error), and return `savedEvent = { ...event, timestamp }`
— note the returned value has no `id` field. -/
def Store.append (s : Store P) (e : NewEvent P) (now : String) :
    Except DomainError (Store P × StoredEvent P) :=
  if s.rows.any (rowConflicts e) then
    .error (.ConcurrencyConflict
      ("Concurrency conflict: version " ++ toString e.version ++
        " already exists"))
  else
    let row : EventRow P :=
      { id := s.nextId
        aggregate_type := e.aggregate_type
        aggregate_id := e.aggregate_id
        event_type := e.event_type
        event_data := e.event_data
        version := e.version
        timestamp := now }
    let savedEvent : StoredEvent P :=
      { id := none
        aggregate_type := e.aggregate_type
        aggregate_id := e.aggregate_id
        event_type := e.event_type
        event_data := e.event_data
        version := e.version
        timestamp := now }
    .ok ({ rows := s.rows ++ [row], nextId := s.nextId + 1 }, savedEvent)

/-- The store state after an `append` attempt: unchanged when the insert was
rejected. -/
def Store.appendRun (s : Store P) (e : NewEvent P) (now : String) : Store P :=
  match s.append e now with
  | .ok (s', _) => s'
  | .error _ => s

/-- `rowToEvent(row)`. -/
def rowToEvent (r : EventRow P) : StoredEvent P :=
  { id := some r.id
    aggregate_type := r.aggregate_type
    aggregate_id := r.aggregate_id
    event_type := r.event_type
    event_data := r.event_data
    version := r.version
    timestamp := r.timestamp }

/-- Stable insertion step for sorting rows ascending by version. -/
def insertRowByVersion (c : EventRow P) : List (EventRow P) → List (EventRow P)
  | [] => [c]
  | d :: ds =>
      if c.version ≤ d.version then c :: d :: ds
      else d :: insertRowByVersion c ds

/-- ORDER BY version ASC over a selection of rows. -/
def sortRowsByVersion (rs : List (EventRow P)) : List (EventRow P) :=
  rs.foldr insertRowByVersion []

/-- The rows of one stream, in table order. -/
def Store.streamRows (s : Store P) (aggregateType : String)
    (aggregateId : String) : List (EventRow P) :=
  s.rows.filter (fun r =>
    r.aggregate_type == aggregateType && r.aggregate_id == aggregateId)

/-- `EventStore.getEvents(aggregateType, aggregateId)`: the stream's rows
ordered by version. -/
def Store.getEvents (s : Store P) (aggregateType : String)
    (aggregateId : String) : List (StoredEvent P) :=
  (sortRowsByVersion (s.streamRows aggregateType aggregateId)).map rowToEvent

/-- `interface Workspace`. -/
structure Workspace where
  id : String
  created_at : String
  deriving Repr, DecidableEq

/-- In-memory `WorkspaceAggregate` instance. The workspace stream's payload
is the `workspace_id` string of the WorkspaceCreated event_data. -/
structure WsAggregate where
  workspaceId : String
  state : Option Workspace
  version : Nat
  deriving Repr, DecidableEq

/-- The replay branch of `WorkspaceAggregate.apply` (isNew = false): only
the WorkspaceCreated tag changes the state; every event updates the version
counter. -/
def WsAggregate.apply (agg : WsAggregate) (e : StoredEvent String) :
    WsAggregate :=
  { agg with
    state :=
      if e.event_type == "WorkspaceCreated" then
        some { id := e.event_data, created_at := e.timestamp }
      else agg.state
    version := e.version }

/-- `new WorkspaceAggregate(id).load()`. -/
def WsAggregate.load (workspaceId : String) (store : Store String) :
    WsAggregate :=
  (store.getEvents "workspace" workspaceId).foldl WsAggregate.apply
    { workspaceId := workspaceId, state := none, version := 0 }

/-- `WorkspaceAggregate.create()`: get-or-create. When the state is absent,
a WorkspaceCreated event at version `this.version + 1` is applied locally
(the isNew = true branch of `apply`, whose non-null state is inlined here)
and appended to the store; an append failure propagates. `now` is the
wall-clock reading. -/
def WsAggregate.create (agg : WsAggregate) (store : Store String)
    (now : String) :
    Except DomainError (Workspace × WsAggregate × Store String) :=
  match agg.state with
  | some st => .ok (st, agg, store)
  | none =>
      let e : NewEvent String :=
        { aggregate_type := "workspace"
          aggregate_id := agg.workspaceId
          event_type := "WorkspaceCreated"
          event_data := agg.workspaceId
          version := agg.version + 1 }
      let ws : Workspace := { id := agg.workspaceId, created_at := now }
      let agg' : WsAggregate :=
        { agg with state := some ws, version := agg.version + 1 }
      match store.append e now with
      | .error err => .error err
      | .ok (store', _) => .ok (ws, agg', store')

/-- `getOrCreateWorkspace(workspaceId)`. -/
def getOrCreateWorkspace (workspaceId : String) (store : Store String)
    (now : String) : Except DomainError (Workspace × Store String) :=
  let aggregate := WsAggregate.load workspaceId store
  match aggregate.state with
  | none =>
      match aggregate.create store now with
      | .error err => .error err
      | .ok (ws, _, store') => .ok (ws, store')
  | some ws => .ok (ws, store)


/-!  Statement helpers and concrete instances used by witnesses and
counterexamples.  -/

/-- Statement helper: a card with every occurrence of `A` stripped from its
dependency list (the effect of folding `DependencyRemoved(c, A)`). -/
def stripDep (A : String) (c : Card) : Card :=
  { c with dependencies := c.dependencies.filter (fun i => i != A) }

/-- Statement helper: the row `WorkspaceAggregate.create` persists for a
fresh workspace. -/
def wsCreatedRow (store : Store String) (wid : String) (now : String) :
    EventRow String :=
  { id := store.nextId
    aggregate_type := "workspace"
    aggregate_id := wid
    event_type := "WorkspaceCreated"
    event_data := wid
    version := 1
    timestamp := now }

/-- Statement helper: the store after a fresh workspace creation. -/
def wsAfterStore (store : Store String) (wid : String) (now : String) :
    Store String :=
  { rows := store.rows ++ [wsCreatedRow store wid now]
    nextId := store.nextId + 1 }

/-- Concrete card `a` that already depends on `b`. -/
def cardWa : Card :=
  { id := "a", column_id := "col1", title := "t", description := ""
    position := 0, dependencies := ["b"] }

/-- Concrete card `b` with no dependencies. -/
def cardWb : Card :=
  { id := "b", column_id := "col1", title := "u", description := ""
    position := 1, dependencies := [] }

/-- Concrete project state holding `cardWa` and `cardWb`. -/
def stateW8 : ProjectState :=
  { initialState with
    id := "p1"
    cards := [cardWa, cardWb] }

/-- Concrete aggregate over `stateW8`. -/
def aggW : ProjectAggregate :=
  { projectId := "p1", state := stateW8, version := 3, log := [] }

/-- Concrete store holding one project event row (stream p1, version 1). -/
def storeW4 : Store Nat :=
  { rows := [{ id := 1, aggregate_type := "project", aggregate_id := "p1"
               event_type := "ProjectCreated", event_data := 7, version := 1
               timestamp := "2024-01-01T00:00:00.000Z" }]
    nextId := 2 }

/-- Concrete incoming event that collides with the row of `storeW4`. -/
def evW4 : NewEvent Nat :=
  { aggregate_type := "project", aggregate_id := "p1"
    event_type := "ProjectRenamed", event_data := 8, version := 1 }

/-- Concrete incoming event on an empty store (for the append claim). -/
def evW3 : NewEvent Nat :=
  { aggregate_type := "project", aggregate_id := "p1"
    event_type := "CardDeleted", event_data := 0, version := 1 }

/-- The exact store produced by appending `evW3` to the empty store. -/
def storeW3After : Store Nat :=
  { rows := [{ id := 1, aggregate_type := "project", aggregate_id := "p1"
               event_type := "CardDeleted", event_data := 0, version := 1
               timestamp := "2024-01-02T00:00:00.000Z" }]
    nextId := 2 }

/-- The exact value `append` returns for `evW3`: stamped timestamp, no id. -/
def savedW3 : StoredEvent Nat :=
  { id := none, aggregate_type := "project", aggregate_id := "p1"
    event_type := "CardDeleted", event_data := 0, version := 1
    timestamp := "2024-01-02T00:00:00.000Z" }



/-- Concrete cards for the card-delete cascade: `B` and `C` depend on `A`. -/
def cardDA : Card :=
  { id := "A", column_id := "col1", title := "ta", description := ""
    position := 0, dependencies := [] }

/-- Concrete dependent card `B`. -/
def cardDB : Card :=
  { id := "B", column_id := "col1", title := "tb", description := ""
    position := 1, dependencies := ["A"] }

/-- Concrete dependent card `C`. -/
def cardDC : Card :=
  { id := "C", column_id := "col1", title := "tc", description := ""
    position := 2, dependencies := ["A"] }

/-- Concrete aggregate holding `A`, `B`, `C`. -/
def aggD : ProjectAggregate :=
  { projectId := "p1"
    state := { initialState with id := "p1", cards := [cardDA, cardDB, cardDC] }
    version := 5
    log := [] }

/-- Scenario builder for the column-delete cascade: two columns `X`, `Y`
(in that map order) and three cards `c1`, `c2`, `d1` (in that map order). -/
def twoColumnAgg (pid wsid pname pdesc : String) (dl : Bool) (ver : Nat)
    (log0 : List ProjectEvent) (X Y : Column) (c1 c2 d1 : Card) :
    ProjectAggregate :=
  { projectId := pid
    state := { id := pid, workspace_id := wsid, name := pname
               description := pdesc, deleted := dl, columns := [X, Y]
               cards := [c1, c2, d1] }
    version := ver
    log := log0 }

/-- Concrete column X at position 1. -/
def colX : Column :=
  { id := "colX", project_id := "p1", name := "X", position := 1, cards := [] }

/-- Concrete column Y at position 0 (the lowest-position column). -/
def colY : Column :=
  { id := "colY", project_id := "p1", name := "Y", position := 0, cards := [] }

/-- Concrete column X at position 0 (for the lowest-position-deleted case). -/
def colX0 : Column :=
  { id := "colX", project_id := "p1", name := "X", position := 0, cards := [] }

/-- Concrete column Y at position 2. -/
def colY2 : Column :=
  { id := "colY", project_id := "p1", name := "Y", position := 2, cards := [] }

/-- Concrete card in X, inserted first in the map but at the higher
position 5. -/
def cardA : Card :=
  { id := "cardA", column_id := "colX", title := "a", description := ""
    position := 5, dependencies := [] }

/-- Concrete card in X, inserted second in the map but at the lower
position 3. -/
def cardB : Card :=
  { id := "cardB", column_id := "colX", title := "b", description := ""
    position := 3, dependencies := [] }

/-- Concrete card in Y. -/
def cardD : Card :=
  { id := "cardD", column_id := "colY", title := "d", description := ""
    position := 0, dependencies := [] }

/-- Concrete aggregate for the column-delete counterexample: X holds cardA
and cardB (map order A then B, position order B then A), Y holds cardD. -/
def aggX : ProjectAggregate :=
  twoColumnAgg "p1" "w1" "P" "" false 7 [] colX colY cardA cardB cardD

/-!  Shared lemmas.  -/

/-- Deleting an absent key from the columns map is a no-op. -/
theorem delColumn_of_absent (cols : List Column) (k : String)
    (h : getColumn? cols k = none) : delColumn cols k = cols := by
  unfold getColumn? at h
  unfold delColumn
  refine List.filter_eq_self.mpr ?_
  intro c hc
  have hne := List.find?_eq_none.mp h c hc
  simp only [Bool.not_eq_true] at hne
  simp [bne, hne]

/-- Deleting an absent key from the cards map is a no-op. -/
theorem delCard_of_absent (cards : List Card) (k : String)
    (h : getCard? cards k = none) : delCard cards k = cards := by
  unfold getCard? at h
  unfold delCard
  refine List.filter_eq_self.mpr ?_
  intro c hc
  have hne := List.find?_eq_none.mp h c hc
  simp only [Bool.not_eq_true] at hne
  simp [bne, hne]

/-!  Claim theorems.  -/

/-- C8: DependencyAdded is idempotent at the projection level — when card
`cid` already lists `did`, folding a further DependencyAdded(cid, did) event
leaves the state (in particular the card's dependency list) unchanged, with
no duplicate entry. -/
theorem dependencyAdded_idempotent (s : ProjectState) (cid did : String)
    (card : Card) (v : Nat) (ts : String) (src : Option String)
    (hfind : getCard? s.cards cid = some card)
    (hmem : did ∈ card.dependencies) :
    applyEvent s ⟨.DependencyAdded cid did, v, ts, src⟩ = s := by
  simp [applyEvent, hfind, hmem]

/-- Witness for C8 at a concrete state: card `a` already depends on `b`. -/
theorem dependencyAdded_idempotent_witness :
    getCard? stateW8.cards "a" = some cardWa ∧ "b" ∈ cardWa.dependencies ∧
      applyEvent stateW8 ⟨.DependencyAdded "a" "b", 1, "", none⟩ = stateW8 :=
  ⟨rfl, by decide,
   dependencyAdded_idempotent stateW8 "a" "b" cardWa 1 "" none rfl (by decide)⟩

/-- C9: replay determinism — `fold` is a pure function (replaying the same
list twice gives the same state), its transitions ignore the event
timestamps (no time dependence), and an event with an undeclared type tag is
a no-op. -/
theorem fold_deterministic (s : ProjectState) (E : List ProjectEvent)
    (f : ProjectEvent → String) :
    fold s E = fold s E ∧
    fold s (E.map (fun e => { e with timestamp := f e })) = fold s E ∧
    ∀ tag v ts src, applyEvent s ⟨.UnknownEvent tag, v, ts, src⟩ = s := by
  refine ⟨rfl, ?_, fun tag v ts src => rfl⟩
  induction E generalizing s with
  | nil => rfl
  | cons e rest ih =>
      show fold (applyEvent s { e with timestamp := f e })
          (rest.map (fun e => { e with timestamp := f e }))
        = fold (applyEvent s e) rest
      have hstep : applyEvent s { e with timestamp := f e } = applyEvent s e :=
        rfl
      rw [hstep]
      exact ih (applyEvent s e)

/-- C10: `applyEvent` is total on events that target an absent column or
card — each of the eight entity-targeting event types leaves the state
unchanged (and, being a total function, never raises). -/
theorem applyEvent_total_on_absent (s : ProjectState)
    (cid did colid nm : String) (p : Int) (t d : Option String) (v : Nat)
    (ts : String) (src : Option String) :
    (getColumn? s.columns colid = none →
      applyEvent s ⟨.ColumnRenamed colid nm, v, ts, src⟩ = s ∧
      applyEvent s ⟨.ColumnMoved colid p, v, ts, src⟩ = s ∧
      applyEvent s ⟨.ColumnDeleted colid, v, ts, src⟩ = s) ∧
    (getCard? s.cards cid = none →
      applyEvent s ⟨.CardUpdated cid t d, v, ts, src⟩ = s ∧
      applyEvent s ⟨.CardMoved cid colid p, v, ts, src⟩ = s ∧
      applyEvent s ⟨.CardDeleted cid, v, ts, src⟩ = s ∧
      applyEvent s ⟨.DependencyAdded cid did, v, ts, src⟩ = s ∧
      applyEvent s ⟨.DependencyRemoved cid did, v, ts, src⟩ = s) := by
  constructor
  · intro h
    refine ⟨?_, ?_, ?_⟩ <;> simp [applyEvent, h, delColumn_of_absent]
  · intro h
    refine ⟨?_, ?_, ?_, ?_, ?_⟩ <;> simp [applyEvent, h, delCard_of_absent]

/-- Witness for C10 at a concrete state: `stateW8` has no column `zz` and no
card `zz`. -/
theorem applyEvent_total_on_absent_witness :
    getColumn? stateW8.columns "zz" = none ∧
    getCard? stateW8.cards "zz" = none ∧
    applyEvent stateW8 ⟨.ColumnDeleted "zz", 1, "", none⟩ = stateW8 ∧
    applyEvent stateW8 ⟨.CardMoved "zz" "col1" 0, 1, "", none⟩ = stateW8 :=
  ⟨rfl, rfl,
   ((applyEvent_total_on_absent stateW8 "zz" "x" "zz" "n" 0 none none 1 ""
       none).1 rfl).2.2,
   ((applyEvent_total_on_absent stateW8 "zz" "x" "col1" "n" 0 none none 1 ""
       none).2 rfl).2.1⟩

/-- C6: dependency guards — for an existing card `cid`,
`addDependency(cid, cid)` always fails with the self-dependency
InvalidOperation and returns no updated aggregate (nothing is appended);
and `addDependency` fails NotFound before appending when either card id is
unknown. -/
theorem addDependency_guards (agg : ProjectAggregate) (cid did : String)
    (src : Option String) :
    (hasCard agg.state cid = true →
      agg.addDependency cid cid src =
        .error (.InvalidOperation "Card cannot depend on itself")) ∧
    (hasCard agg.state cid = false →
      agg.addDependency cid did src = .error (.NotFound "Card not found")) ∧
    (hasCard agg.state cid = true → hasCard agg.state did = false →
      agg.addDependency cid did src =
        .error (.NotFound "Dependency card not found")) := by
  refine ⟨fun h => ?_, fun h => ?_, fun h h2 => ?_⟩ <;>
    simp [ProjectAggregate.addDependency, h, *]

/-- Witness for C6 at a concrete aggregate: card `a` exists, `zz` does not. -/
theorem addDependency_guards_witness :
    hasCard aggW.state "a" = true ∧ hasCard aggW.state "zz" = false ∧
    aggW.addDependency "a" "a" none =
      .error (.InvalidOperation "Card cannot depend on itself") ∧
    aggW.addDependency "zz" "b" none =
      .error (.NotFound "Card not found") ∧
    aggW.addDependency "a" "zz" none =
      .error (.NotFound "Dependency card not found") :=
  ⟨rfl, rfl, (addDependency_guards aggW "a" "a" none).1 rfl,
   (addDependency_guards aggW "zz" "b" none).2.1 rfl,
   (addDependency_guards aggW "a" "zz" none).2.2 rfl rfl⟩

/-- C4: appending a duplicate (aggregate_type, aggregate_id, version) triple
always fails with the concurrency-conflict error and leaves the stored rows
unchanged. -/
theorem append_duplicate_conflict (P : Type) (s : Store P) (e : NewEvent P)
    (now : String) (h : ∃ r ∈ s.rows, rowConflicts e r = true) :
    s.append e now =
      .error (.ConcurrencyConflict
        ("Concurrency conflict: version " ++ toString e.version ++
          " already exists")) ∧
    s.appendRun e now = s := by
  have hb : s.rows.any (rowConflicts e) = true := by
    obtain ⟨r, hr, hc⟩ := h
    exact List.any_eq_true.mpr ⟨r, hr, hc⟩
  constructor
  · simp [Store.append, hb]
  · simp [Store.appendRun, Store.append, hb]

/-- Witness for C4 at a concrete store: `evW4` collides with the stored row
(project, p1, version 1). -/
theorem append_duplicate_conflict_witness :
    (∃ r ∈ storeW4.rows, rowConflicts evW4 r = true) ∧
    storeW4.append evW4 "2024-01-03T00:00:00.000Z" =
      .error (.ConcurrencyConflict
        ("Concurrency conflict: version " ++ toString evW4.version ++
          " already exists")) ∧
    storeW4.appendRun evW4 "2024-01-03T00:00:00.000Z" = storeW4 :=
  ⟨by decide,
   append_duplicate_conflict Nat storeW4 evW4 "2024-01-03T00:00:00.000Z"
     (by decide)⟩


/-- Counterexample for C3: on an empty store, `append` persists the event as
a row carrying the store-assigned sequence id 1, but the value it returns
(`savedEvent = { ...event, timestamp }`) has no id — so the returned value
does not carry the sequence id assigned at persistence. -/
theorem append_returned_event_lacks_id_counterexample :
    (Store.empty Nat).append evW3 "2024-01-02T00:00:00.000Z" =
      .ok (storeW3After, savedW3) ∧
    storeW3After.rows.map EventRow.id = [1] ∧
    savedW3.id = none ∧ savedW3.id ≠ some 1 :=
  ⟨rfl, rfl, rfl, by decide⟩

/-- C3 (amended): for every event accepted by the store, `append` stamps the
server timestamp, persists the event as a new row whose sequence id is the
store-assigned `nextId`, and returns the event carrying the stamped
timestamp but no sequence id (the id field of the returned value is
absent). -/
theorem append_returns_stamped_event_without_id (P : Type) (s : Store P)
    (e : NewEvent P) (now : String)
    (h : ∀ r ∈ s.rows, rowConflicts e r = false) :
    s.append e now =
      .ok (⟨s.rows ++ [⟨s.nextId, e.aggregate_type, e.aggregate_id,
              e.event_type, e.event_data, e.version, now⟩], s.nextId + 1⟩,
           ⟨none, e.aggregate_type, e.aggregate_id, e.event_type,
              e.event_data, e.version, now⟩) := by
  have hb : s.rows.any (rowConflicts e) = false := by
    rw [List.any_eq_false]
    intro r hr
    simp [h r hr]
  simp [Store.append, hb]

/-- Witness for the amended C3 at a concrete input: the empty store accepts
`evW3`. -/
theorem append_returns_stamped_event_without_id_witness :
    (∀ r ∈ (Store.empty Nat).rows, rowConflicts evW3 r = false) ∧
    (Store.empty Nat).append evW3 "2024-01-02T00:00:00.000Z" =
      .ok (⟨(Store.empty Nat).rows ++ [⟨(Store.empty Nat).nextId, "project",
              "p1", "CardDeleted", 0, 1, "2024-01-02T00:00:00.000Z"⟩],
            (Store.empty Nat).nextId + 1⟩,
           ⟨none, "project", "p1", "CardDeleted", 0, 1,
              "2024-01-02T00:00:00.000Z"⟩) :=
  ⟨by decide,
   append_returns_stamped_event_without_id Nat (Store.empty Nat) evW3
     "2024-01-02T00:00:00.000Z" (by decide)⟩


/-- C5: `create(workspaceId, name, description)` on a fresh aggregate
appends exactly 4 events — ProjectCreated then three ColumnAdded — and the
resulting projection has exactly the 3 default columns "To Do",
"In Progress", "Done" at positions 0, 1, 2. The `cid` arguments are the
three `uuidv4()` results, assumed pairwise distinct. -/
theorem create_default_columns (pid wid nm ds a b c : String)
    (hab : a ≠ b) (hac : a ≠ c) (hbc : b ≠ c) :
    ((ProjectAggregate.mk0 pid).create wid nm ds a b c).log.map
        ProjectEvent.event_data =
      [.ProjectCreated pid wid nm ds, .ColumnAdded a "To Do" 0,
       .ColumnAdded b "In Progress" 1, .ColumnAdded c "Done" 2] ∧
    ((ProjectAggregate.mk0 pid).create wid nm ds a b c).log.length = 4 ∧
    ((ProjectAggregate.mk0 pid).create wid nm ds a b c).toProject.columns.map
        (fun col => (col.name, col.position)) =
      [("To Do", 0), ("In Progress", 1), ("Done", 2)] := by
  have hab' : (a == b) = false := beq_eq_false_iff_ne.mpr hab
  have hac' : (a == c) = false := beq_eq_false_iff_ne.mpr hac
  have hbc' : (b == c) = false := beq_eq_false_iff_ne.mpr hbc
  refine ⟨?_, ?_, ?_⟩ <;>
    simp [ProjectAggregate.create, ProjectAggregate.mk0,
      ProjectAggregate.appendEvent, ProjectAggregate.toProject, applyEvent,
      initialState, setColumn, getColumn?, sortColumnsByPosition,
      insertColByPosition, sortCardsByPosition, hab', hac', hbc']

/-- Witness for C5 at concrete inputs. -/
theorem create_default_columns_witness :
    ("a" ≠ "b" ∧ "a" ≠ "c" ∧ "b" ≠ "c") ∧
    (((ProjectAggregate.mk0 "p").create "w" "n" "d" "a" "b" "c").log.map
        ProjectEvent.event_data =
      [.ProjectCreated "p" "w" "n" "d", .ColumnAdded "a" "To Do" 0,
       .ColumnAdded "b" "In Progress" 1, .ColumnAdded "c" "Done" 2] ∧
    ((ProjectAggregate.mk0 "p").create "w" "n" "d" "a" "b" "c").log.length
        = 4 ∧
    ((ProjectAggregate.mk0 "p").create "w" "n" "d" "a" "b"
          "c").toProject.columns.map (fun col => (col.name, col.position)) =
      [("To Do", 0), ("In Progress", 1), ("Done", 2)]) :=
  ⟨⟨by decide, by decide, by decide⟩,
   create_default_columns "p" "w" "n" "d" "a" "b" "c" (by decide) (by decide)
     (by decide)⟩


/-- C7: workspace creation is an idempotent get-or-create. Already created:
`create()` returns the loaded state and touches neither aggregate nor store.
Fresh stream: `getOrCreateWorkspace` appends exactly one WorkspaceCreated
row at version 1 (the row of `wsAfterStore`), and a second call after a
reload returns the existing workspace with the store unchanged — one
appended event in total. -/
theorem workspace_create_idempotent (store : Store String)
    (wid now now2 : String) :
    (∀ ws, (WsAggregate.load wid store).state = some ws →
      (WsAggregate.load wid store).create store now =
        .ok (ws, WsAggregate.load wid store, store)) ∧
    (store.streamRows "workspace" wid = [] →
      getOrCreateWorkspace wid store now =
        .ok ({ id := wid, created_at := now }, wsAfterStore store wid now) ∧
      getOrCreateWorkspace wid (wsAfterStore store wid now) now2 =
        .ok ({ id := wid, created_at := now }, wsAfterStore store wid now)) := by
  constructor
  · intro ws hws
    simp [WsAggregate.create, hws]
  · intro h
    have hload : WsAggregate.load wid store = ⟨wid, none, 0⟩ := by
      unfold WsAggregate.load Store.getEvents
      rw [h]
      rfl
    have hfalse : ∀ (e : NewEvent String), e.aggregate_type = "workspace" →
        e.aggregate_id = wid → store.rows.any (rowConflicts e) = false := by
      intro e hty hid
      rw [List.any_eq_false]
      intro r hr
      unfold Store.streamRows at h
      have hnr := List.filter_eq_nil_iff.mp h r hr
      simp only [Bool.not_eq_true, Bool.and_eq_false_iff] at hnr
      simp only [rowConflicts, hty, hid, Bool.and_eq_true, Bool.not_eq_true,
        Bool.and_eq_false_iff]
      intro hc
      rcases hnr with hnr | hnr
      · exact absurd hc.1.1 (by simp [hnr])
      · exact absurd hc.1.2 (by simp [hnr])
    have happ : store.append
        (⟨"workspace", wid, "WorkspaceCreated", wid, 1⟩ : NewEvent String)
        now =
        .ok (wsAfterStore store wid now,
             ⟨none, "workspace", wid, "WorkspaceCreated", wid, 1, now⟩) := by
      have hb := hfalse ⟨"workspace", wid, "WorkspaceCreated", wid, 1⟩ rfl rfl
      simp [Store.append, hb, wsAfterStore, wsCreatedRow]
    have hfirst : getOrCreateWorkspace wid store now =
        .ok ({ id := wid, created_at := now }, wsAfterStore store wid now) := by
      unfold getOrCreateWorkspace
      rw [hload]
      simp only [WsAggregate.create]
      rw [happ]
    refine ⟨hfirst, ?_⟩
    have hstream2 : (wsAfterStore store wid now).streamRows "workspace" wid =
        [wsCreatedRow store wid now] := by
      unfold Store.streamRows wsAfterStore at *
      rw [List.filter_append, h]
      simp [wsCreatedRow]
    have hload2 : WsAggregate.load wid (wsAfterStore store wid now) =
        ⟨wid, some ⟨wid, now⟩, 1⟩ := by
      unfold WsAggregate.load Store.getEvents
      rw [hstream2]
      rfl
    unfold getOrCreateWorkspace
    rw [hload2]

/-- Witness for C7 at a concrete empty store. -/
theorem workspace_create_idempotent_witness :
    (Store.empty String).streamRows "workspace" "w1" = [] ∧
    (getOrCreateWorkspace "w1" (Store.empty String) "T1" =
       .ok ({ id := "w1", created_at := "T1" },
            wsAfterStore (Store.empty String) "w1" "T1") ∧
     getOrCreateWorkspace "w1" (wsAfterStore (Store.empty String) "w1" "T1")
         "T2" =
       .ok ({ id := "w1", created_at := "T1" },
            wsAfterStore (Store.empty String) "w1" "T1")) ∧
    (WsAggregate.load "w1"
        (wsAfterStore (Store.empty String) "w1" "T1")).state =
      some { id := "w1", created_at := "T1" } ∧
    (WsAggregate.load "w1"
        (wsAfterStore (Store.empty String) "w1" "T1")).create
        (wsAfterStore (Store.empty String) "w1" "T1") "T3" =
      .ok ({ id := "w1", created_at := "T1" },
           WsAggregate.load "w1" (wsAfterStore (Store.empty String) "w1" "T1"),
           wsAfterStore (Store.empty String) "w1" "T1") :=
  ⟨rfl,
   (workspace_create_idempotent (Store.empty String) "w1" "T1" "T2").2 rfl,
   rfl,
   (workspace_create_idempotent
       (wsAfterStore (Store.empty String) "w1" "T1") "w1" "T3" "T4").1
     { id := "w1", created_at := "T1" } rfl⟩


/-!  Lemmas for the card-delete cascade.  -/

/-- Stripping a dependency does not change a card's id. -/
theorem stripDep_id (A : String) (c : Card) : (stripDep A c).id = c.id := rfl

/-- Cards not mentioning `A` are fixed by `stripDep`. -/
theorem stripDep_of_not_mem (A : String) (c : Card)
    (h : A ∉ c.dependencies) : stripDep A c = c := by
  unfold stripDep
  have : c.dependencies.filter (fun i => i != A) = c.dependencies := by
    refine List.filter_eq_self.mpr ?_
    intro i hi
    have : i ≠ A := fun he => h (he ▸ hi)
    simp [bne, this]
  rw [this]

/-- Lookup skips a prefix whose ids all differ from the key. -/
theorem getCard?_append_right (l1 l2 : List Card) (k : String)
    (h : ∀ x ∈ l1, x.id ≠ k) : getCard? (l1 ++ l2) k = getCard? l2 k := by
  unfold getCard?
  induction l1 with
  | nil => rfl
  | cons a l ih =>
      have ha : (a.id == k) = false :=
        beq_eq_false_iff_ne.mpr (h a (by simp))
      rw [List.cons_append, List.find?_cons_of_neg _ (by simp [ha])]
      exact ih fun x hx => h x (by simp [hx])

/-- Lookup finds the head when its id is the key. -/
theorem getCard?_cons_self (c : Card) (l : List Card) :
    getCard? (c :: l) c.id = some c := by
  unfold getCard?
  rw [List.find?_cons_of_pos _ (by simp)]

/-- `Map.set` replaces exactly the unique entry carrying the key. -/
theorem setCard_middle (l1 l2 : List Card) (c v : Card)
    (h1 : ∀ x ∈ l1, x.id ≠ c.id) (h2 : ∀ x ∈ l2, x.id ≠ c.id) :
    setCard (l1 ++ c :: l2) c.id v = l1 ++ v :: l2 := by
  have hfind : getCard? (l1 ++ c :: l2) c.id = some c := by
    rw [getCard?_append_right l1 _ _ h1, getCard?_cons_self]
  unfold getCard? at hfind
  unfold setCard
  rw [hfind]
  simp only [Option.isSome_some, if_true, List.map_append, List.map_cons,
    beq_self_eq_true, if_pos]
  have m1 : l1.map (fun x => if x.id == c.id then v else x) = l1 := by
    rw [List.map_congr_left, List.map_id]
    intro x hx
    simp [beq_eq_false_iff_ne.mpr (h1 x hx)]
  have m2 : l2.map (fun x => if x.id == c.id then v else x) = l2 := by
    rw [List.map_congr_left, List.map_id]
    intro x hx
    simp [beq_eq_false_iff_ne.mpr (h2 x hx)]
  rw [m1, m2]


/-- Invariant of the dependency-removal loop of `deleteCard`: iterating over
the snapshot suffix `rest` (the processed prefix `pre` already stripped in
the live state) succeeds, strips `A` from every remaining referencer, and
appends one DependencyRemoved event per snapshot card whose dependency list
includes `A`, in snapshot order. -/
theorem depLoop_spec (A : String) (src : Option String) :
    ∀ (rest pre : List Card) (agg : ProjectAggregate),
      ((pre ++ rest).map Card.id).Nodup →
      agg.state.cards = pre.map (stripDep A) ++ rest →
      ∃ agg', agg.depLoop rest A src = .ok agg' ∧
        agg'.state = { agg.state with
                       cards := (pre ++ rest).map (stripDep A) } ∧
        agg'.log.map (fun ev => (ev.event_data, ev.source)) =
          agg.log.map (fun ev => (ev.event_data, ev.source)) ++
            (rest.filter (fun c => A ∈ c.dependencies)).map
              (fun c => (EventData.DependencyRemoved c.id A, src)) := by
  intro rest
  induction rest with
  | nil =>
      intro pre agg hnd hst
      refine ⟨agg, rfl, ?_, by simp⟩
      rw [List.append_nil] at hst ⊢
      calc agg.state = { agg.state with cards := agg.state.cards } := rfl
        _ = { agg.state with cards := pre.map (stripDep A) } := by rw [hst]
  | cons c rest ih =>
      intro pre agg hnd hst
      have hnd' : ((pre ++ [c] ++ rest).map Card.id).Nodup := by
        simpa [List.append_assoc] using hnd
      have hpreid : ∀ x ∈ pre, x.id ≠ c.id := by
        intro x hx he
        rw [List.map_append, List.map_cons, List.nodup_append] at hnd
        exact (hnd.2.2 (List.mem_map_of_mem Card.id hx)) (by simp [he])
      have hrestid : ∀ x ∈ rest, x.id ≠ c.id := by
        intro x hx he
        rw [List.map_append, List.map_cons, List.nodup_append] at hnd
        exact (List.nodup_cons.mp hnd.2.1).1 (he ▸ List.mem_map_of_mem _ hx)
      have hpreid' : ∀ x ∈ pre.map (stripDep A), x.id ≠ c.id := by
        intro x hx
        obtain ⟨y, hy, rfl⟩ := List.mem_map.mp hx
        exact hpreid y hy
      have hfind : getCard? agg.state.cards c.id = some c := by
        rw [hst, getCard?_append_right _ _ _ hpreid', getCard?_cons_self]
      by_cases hmem : A ∈ c.dependencies
      · have hhas : hasCard agg.state c.id = true := by
          simp [hasCard, hfind]
        have hstate1 :
            (agg.appendEvent (.DependencyRemoved c.id A) src).state =
              { agg.state with
                cards := (pre ++ [c]).map (stripDep A) ++ rest } := by
          show applyEvent agg.state
              ⟨.DependencyRemoved c.id A, agg.version + 1, "", src⟩ = _
          simp only [applyEvent]
          rw [hfind]
          dsimp only
          have : ({ c with
              dependencies :=
                c.dependencies.filter (fun i => i != A) } : Card) =
              stripDep A c := rfl
          rw [this, hst, setCard_middle _ _ _ _ hpreid' hrestid]
          simp
        obtain ⟨agg', hrun, hstate, hlog⟩ :=
          ih (pre ++ [c]) (agg.appendEvent (.DependencyRemoved c.id A) src)
            hnd' (by rw [hstate1])
        refine ⟨agg', ?_, ?_, ?_⟩
        · show ProjectAggregate.depLoop agg (c :: rest) A src = .ok agg'
          unfold ProjectAggregate.depLoop
          rw [if_pos hmem]
          have hrem : agg.removeDependency c.id A src =
              .ok (agg.appendEvent (.DependencyRemoved c.id A) src) := by
            simp [ProjectAggregate.removeDependency, hhas]
          rw [hrem]
          exact hrun
        · rw [hstate, hstate1]
          have : (pre ++ [c]) ++ rest = pre ++ c :: rest := by simp
          rw [this]
        · rw [hlog]
          have hlog1 :
              (agg.appendEvent (.DependencyRemoved c.id A) src).log.map
                  (fun ev => (ev.event_data, ev.source)) =
                agg.log.map (fun ev => (ev.event_data, ev.source)) ++
                  [(EventData.DependencyRemoved c.id A, src)] := by
            simp [ProjectAggregate.appendEvent]
          rw [hlog1, List.filter_cons_of_pos]
          · simp
          · simpa using hmem
      · have hcfix : stripDep A c = c := stripDep_of_not_mem A c hmem
        obtain ⟨agg', hrun, hstate, hlog⟩ := ih (pre ++ [c]) agg hnd' (by
          rw [hst]
          simp [hcfix])
        refine ⟨agg', ?_, ?_, ?_⟩
        · show ProjectAggregate.depLoop agg (c :: rest) A src = .ok agg'
          unfold ProjectAggregate.depLoop
          rw [if_neg hmem]
          exact hrun
        · rw [hstate]
          have : (pre ++ [c]) ++ rest = pre ++ c :: rest := by simp
          rw [this]
        · rw [hlog, List.filter_cons_of_neg]
          simpa using hmem


/-- C2: the card-delete cascade. For every existing card `A` in a state
with well-formed (duplicate-free) card ids, `deleteCard(A)` removes `A`
from the dependency list of every remaining card, removes `A` itself, and
appends exactly (number of distinct cards whose dependency list includes
`A`) + 1 events: one DependencyRemoved per referencing card, in map order,
followed by one CardDeleted. -/
theorem deleteCard_cascade (agg : ProjectAggregate) (A : String)
    (src : Option String) (hA : hasCard agg.state A = true)
    (hnodup : (agg.state.cards.map Card.id).Nodup) :
    ∃ agg', agg.deleteCard A src = .ok agg' ∧
      agg'.log.map (fun ev => (ev.event_data, ev.source)) =
        agg.log.map (fun ev => (ev.event_data, ev.source)) ++
          (agg.state.cards.filter (fun c => A ∈ c.dependencies)).map
            (fun c => (EventData.DependencyRemoved c.id A, src)) ++
          [(EventData.CardDeleted A, src)] ∧
      agg'.log.length = agg.log.length +
        (agg.state.cards.filter (fun c => A ∈ c.dependencies)).length + 1 ∧
      agg'.state.cards =
        (agg.state.cards.map (stripDep A)).filter (fun c => c.id != A) ∧
      ∀ c ∈ agg'.state.cards, A ∉ c.dependencies ∧ c.id ≠ A := by
  obtain ⟨agg1, hrun, hstate, hlog⟩ :=
    depLoop_spec A src agg.state.cards [] agg (by simpa using hnodup)
      (by simp)
  have hcards1 : agg1.state.cards = agg.state.cards.map (stripDep A) := by
    simp [hstate]
  have hcards2 :
      (agg1.appendEvent (.CardDeleted A) src).state.cards =
        (agg.state.cards.map (stripDep A)).filter (fun c => c.id != A) := by
    show (applyEvent agg1.state
        ⟨.CardDeleted A, agg1.version + 1, "", src⟩).cards = _
    simp only [applyEvent]
    show delCard agg1.state.cards A = _
    rw [hcards1]
    rfl
  refine ⟨agg1.appendEvent (.CardDeleted A) src, ?_, ?_, ?_, ?_, ?_⟩
  · simp [ProjectAggregate.deleteCard, hA, hrun]
  · have hlog2 : (agg1.appendEvent (.CardDeleted A) src).log.map
        (fun ev => (ev.event_data, ev.source)) =
        agg1.log.map (fun ev => (ev.event_data, ev.source)) ++
          [(EventData.CardDeleted A, src)] := by
      simp [ProjectAggregate.appendEvent]
    rw [hlog2, hlog]
  · have hlog2 : (agg1.appendEvent (.CardDeleted A) src).log.map
        (fun ev => (ev.event_data, ev.source)) =
        agg1.log.map (fun ev => (ev.event_data, ev.source)) ++
          [(EventData.CardDeleted A, src)] := by
      simp [ProjectAggregate.appendEvent]
    have hlen := congrArg List.length (hlog2.trans (by rw [hlog]))
    simpa [Nat.add_assoc] using hlen
  · exact hcards2
  · intro c hc
    rw [hcards2] at hc
    rw [List.mem_filter] at hc
    obtain ⟨hcm, hcid⟩ := hc
    obtain ⟨c0, hc0, rfl⟩ := List.mem_map.mp hcm
    constructor
    · intro hAmem
      simp only [stripDep, List.mem_filter] at hAmem
      simp at hAmem
    · simpa [bne] using hcid

/-- Witness for C2 at a concrete aggregate: cards `B` and `C` depend on
`A`; deleting `A` appends DependencyRemoved(B, A), DependencyRemoved(C, A),
CardDeleted(A). -/
theorem deleteCard_cascade_witness :
    hasCard aggD.state "A" = true ∧
    (aggD.state.cards.map Card.id).Nodup ∧
    (∃ agg', aggD.deleteCard "A" none = .ok agg' ∧
      agg'.log.map (fun ev => (ev.event_data, ev.source)) =
        aggD.log.map (fun ev => (ev.event_data, ev.source)) ++
          (aggD.state.cards.filter (fun c => "A" ∈ c.dependencies)).map
            (fun c => (EventData.DependencyRemoved c.id "A", none)) ++
          [(EventData.CardDeleted "A", none)] ∧
      agg'.log.length = aggD.log.length +
        (aggD.state.cards.filter
          (fun c => "A" ∈ c.dependencies)).length + 1 ∧
      agg'.state.cards =
        (aggD.state.cards.map (stripDep "A")).filter
          (fun c => c.id != "A") ∧
      ∀ c ∈ agg'.state.cards, "A" ∉ c.dependencies ∧ c.id ≠ "A") :=
  ⟨rfl, by decide, deleteCard_cascade aggD "A" none rfl (by decide)⟩


/-- Counterexample for C1: in `aggX`, column X holds exactly cardB and cardA
in that position order (cardB.position = 3 < 5 = cardA.position), column Y
is the lowest-position other column and holds exactly cardD — so the claim,
instantiated with c1 = cardB and c2 = cardA, demands that cardB end at
position 1 and that the first CardMoved event name cardB. The code iterates
the cards map in insertion order, so it moves cardA first: cardA ends at
position 1 and cardB at position 2, and the first CardMoved names cardA. -/
theorem deleteColumn_cascade_counterexample :
    cardB.position < cardA.position ∧
    cardB.column_id = colX.id ∧ cardA.column_id = colX.id ∧
    cardD.column_id = colY.id ∧ colY.position < colX.position ∧
    (aggX.deleteColumn colX.id).map (fun a =>
        (a.log.map ProjectEvent.event_data,
         (getCard? a.state.cards cardB.id).map Card.position,
         (getCard? a.state.cards cardA.id).map Card.position)) =
      .ok ([.CardMoved "cardA" "colY" 1, .CardMoved "cardB" "colY" 2,
            .ColumnDeleted "colX"], some 2, some 1) ∧
    (some (2 : Int) ≠ some (1 : Int)) := by
  exact ⟨by decide, rfl, rfl, rfl, by decide, by rfl, by decide⟩


/-- C1 (amended): the column-delete cascade in map order. With columns
[X, Y] and cards [c1, c2, d1] (map insertion order), c1 and c2 in X, d1 in
Y: if Y has the strictly lowest position, `deleteColumn(X)` moves c1 then
c2 to Y — in the cards-map insertion order, not in position order — giving
them positions 1 and 2 (each computed against Y's card count at that step),
and appends exactly the events CardMoved(c1), CardMoved(c2),
ColumnDeleted(X); if X is the lowest-position column, only ColumnDeleted is
appended and no card moves. -/
theorem deleteColumn_cascade (pid wsid pname pdesc : String) (dl : Bool)
    (ver : Nat) (log0 : List ProjectEvent) (X Y : Column) (c1 c2 d1 : Card)
    (hxy : X.id ≠ Y.id)
    (hc1 : c1.column_id = X.id) (hc2 : c2.column_id = X.id)
    (hd1 : d1.column_id = Y.id)
    (h12 : c1.id ≠ c2.id) (h1d : c1.id ≠ d1.id) (h2d : c2.id ≠ d1.id) :
    (Y.position < X.position →
      ((twoColumnAgg pid wsid pname pdesc dl ver log0 X Y c1 c2
          d1).deleteColumn X.id).map (fun a =>
          (a.log.map ProjectEvent.event_data,
           getCard? a.state.cards c1.id, getCard? a.state.cards c2.id,
           a.state.columns)) =
        .ok (log0.map ProjectEvent.event_data ++
              [.CardMoved c1.id Y.id 1, .CardMoved c2.id Y.id 2,
               .ColumnDeleted X.id],
             some { c1 with column_id := Y.id, position := 1 },
             some { c2 with column_id := Y.id, position := 2 },
             [Y])) ∧
    (X.position ≤ Y.position →
      ((twoColumnAgg pid wsid pname pdesc dl ver log0 X Y c1 c2
          d1).deleteColumn X.id).map (fun a =>
          (a.log.map ProjectEvent.event_data, a.state.cards)) =
        .ok (log0.map ProjectEvent.event_data ++ [.ColumnDeleted X.id],
             [c1, c2, d1])) := by
  have hyx : Y.id ≠ X.id := Ne.symm hxy
  have h21 : c2.id ≠ c1.id := Ne.symm h12
  have hd1c1 : d1.id ≠ c1.id := Ne.symm h1d
  have hd1c2 : d1.id ≠ c2.id := Ne.symm h2d
  have bxy : (X.id == Y.id) = false := beq_eq_false_iff_ne.mpr hxy
  have byx : (Y.id == X.id) = false := beq_eq_false_iff_ne.mpr hyx
  have b12 : (c1.id == c2.id) = false := beq_eq_false_iff_ne.mpr h12
  have b21 : (c2.id == c1.id) = false := beq_eq_false_iff_ne.mpr h21
  have b1d : (c1.id == d1.id) = false := beq_eq_false_iff_ne.mpr h1d
  have bd1 : (d1.id == c1.id) = false := beq_eq_false_iff_ne.mpr hd1c1
  have b2d : (c2.id == d1.id) = false := beq_eq_false_iff_ne.mpr h2d
  have bd2 : (d1.id == c2.id) = false := beq_eq_false_iff_ne.mpr hd1c2
  constructor
  · intro hpos
    have hns : ¬ X.position ≤ Y.position := not_le.mpr hpos
    simp [twoColumnAgg, ProjectAggregate.deleteColumn, hasColumn, getColumn?,
      sortColumnsByPosition, insertColByPosition, ProjectAggregate.moveLoop,
      ProjectAggregate.moveCard, hasCard, getCard?,
      ProjectAggregate.appendEvent, applyEvent, setCard, delColumn,
      Except.map, List.find?, List.filter, bne, hc1, hc2, hd1, hxy, hyx, h12, h21, h1d,
      hd1c1, h2d, hd1c2, bxy, byx, b12, b21, b1d, bd1, b2d, bd2, hns]
  · intro hle
    simp [twoColumnAgg, ProjectAggregate.deleteColumn, hasColumn, getColumn?,
      sortColumnsByPosition, insertColByPosition,
      ProjectAggregate.appendEvent, applyEvent, delColumn,
      Except.map, List.find?, List.filter, bne, hxy, hyx, bxy, byx, hle]


/-- Witness for the amended C1 at concrete inputs: the map-order cascade on
`aggX` (cards moved in insertion order cardA, cardB) and the no-move case
when the deleted column has the lowest position. -/
theorem deleteColumn_cascade_witness :
    colY.position < colX.position ∧ colX0.position ≤ colY2.position ∧
    (aggX.deleteColumn colX.id).map (fun a =>
        (a.log.map ProjectEvent.event_data,
         getCard? a.state.cards cardA.id, getCard? a.state.cards cardB.id,
         a.state.columns)) =
      .ok (([] : List ProjectEvent).map ProjectEvent.event_data ++
            [.CardMoved cardA.id colY.id 1, .CardMoved cardB.id colY.id 2,
             .ColumnDeleted colX.id],
           some { cardA with column_id := colY.id, position := 1 },
           some { cardB with column_id := colY.id, position := 2 },
           [colY]) ∧
    ((twoColumnAgg "p1" "w1" "P" "" false 7 [] colX0 colY2 cardA cardB
        cardD).deleteColumn colX0.id).map (fun a =>
        (a.log.map ProjectEvent.event_data, a.state.cards)) =
      .ok (([] : List ProjectEvent).map ProjectEvent.event_data ++
            [.ColumnDeleted colX0.id],
           [cardA, cardB, cardD]) :=
  ⟨by decide, by decide,
   (deleteColumn_cascade "p1" "w1" "P" "" false 7 [] colX colY cardA cardB
       cardD (by decide) rfl rfl rfl (by decide) (by decide) (by decide)).1
     (by decide),
   (deleteColumn_cascade "p1" "w1" "P" "" false 7 [] colX0 colY2 cardA cardB
       cardD (by decide) rfl rfl rfl (by decide) (by decide) (by decide)).2
     (by decide)⟩


end Yakataka
